import Mathlib

/-
Verification development for the Gaia admin dashboard
(src/admin_dashboard.py).  The dashboard is a thin presentation layer
over two read queries and in-memory filtering; this file embeds the
data model and the loading, caching, filtering, statistics and export
operations, and proves the stated properties about them.

Records coming from the document store are loosely typed: any field may
be absent.  We model every field as an Option, with absence as none;
the Python pattern record.get(field, default) becomes Option.getD.
-/

set_option autoImplicit false

namespace AdminDashboard

/-- Message record: textual content and a flag distinguishing a human
message from an assistant message.  Fields may be absent in the store. -/
structure Message where
  content : Option String
  isUser : Option Bool
deriving DecidableEq, Repr

/-- Conversation record as read from the conversations collection. -/
structure Conversation where
  id : Option String
  userId : Option String
  title : Option String
  createdAt : Option String
  updatedAt : Option String
  messages : Option (List Message)
deriving DecidableEq, Repr

/-- User record as read from the users collection. -/
structure User where
  id : Option String
  email : Option String
  firstName : Option String
  lastName : Option String
  plan : Option String
  is_verified : Option Bool
  isSuspended : Option Bool
  createdAt : Option String
  accountExpiresAt : Option String
  daily_requests : Option Nat
  last_request_date : Option String
  stripe_customer_id : Option String
deriving DecidableEq, Repr

/-
Case-insensitive substring matching.  Python tests
needle.lower() in haystack.lower(); the membership operator on strings
is contiguous-substring containment.  We implement the search on the
character lists and prove below that it coincides with the existence
of a decomposition haystack = s ++ needle ++ t.
-/

/-- headMatch n h is true when the list n is an initial segment of h. -/
def headMatch : List Char → List Char → Bool
  | [], _ => true
  | _ :: _, [] => false
  | a :: as, b :: bs => (a == b) && headMatch as bs

/-- subMatch n h is true when n occurs contiguously somewhere in h. -/
def subMatch (n : List Char) : List Char → Bool
  | [] => headMatch n []
  | b :: bs => headMatch n (b :: bs) || subMatch n bs

/-- Characters of a string lowercased one by one, the embedding of the
Python expression s.lower() read as a character sequence. -/
def lowerChars (s : String) : List Char :=
  s.toList.map Char.toLower

/-- Case-insensitive substring test, the embedding of the Python idiom
needle.lower() in haystack.lower(). -/
def substrCI (needle haystack : String) : Bool :=
  subMatch (lowerChars needle) (lowerChars haystack)

/-
Overview page statistics, admin_dashboard.py lines 193 and 210 and
lines 222 to 225.
-/

/-- Number of users whose verification flag is set, line 193:
sum of 1 for each user with is_verified truthy, absent meaning false. -/
def verified_users (users : List User) : Nat :=
  users.foldl (fun acc u => acc + (if u.is_verified.getD false then 1 else 0)) 0

/-- Total message count, line 210: the running sum over the conversation
snapshot of the length of each message list, absent meaning empty. -/
def total_messages (conversations : List Conversation) : Nat :=
  conversations.foldl (fun acc c => acc + (c.messages.getD []).length) 0

/-- Plan bucket key of a user, the expression user.get with default on
line 224: an absent plan is read as the literal unknown. -/
def planKey (u : User) : String := u.plan.getD "unknown"

/-- One dictionary update plan_counts[plan] = plan_counts.get(plan, 0) + 1
of line 225, on an association list in insertion order: increment the
entry holding the key if present, otherwise append the key with count 1. -/
def bump : List (String × Nat) → String → List (String × Nat)
  | [], p => [(p, 1)]
  | (k, n) :: rest, p =>
      if k = p then (k, n + 1) :: rest else (k, n) :: bump rest p

/-- Plan histogram of lines 222 to 225: fold the dictionary update over
the user snapshot starting from the empty dictionary. -/
def plan_counts (users : List User) : List (String × Nat) :=
  users.foldl (fun acc u => bump acc (planKey u)) []

/-- Count looked up in the association list for a key, 0 when absent. -/
def lookupCount : List (String × Nat) → String → Nat
  | [], _ => 0
  | (k, n) :: rest, p => if k = p then n else lookupCount rest p

/-
Users page, admin_dashboard.py lines 258 to 269: the plan selectbox
options and the two filters.
-/

/-- Options of the plan selectbox on line 258: the label Tous followed by
the distinct normalized plan values of the snapshot.  Python set
iteration order is unspecified; dedup keeps first occurrences, and only
membership in the option list is relied upon. -/
def plan_options (users : List User) : List String :=
  "Tous" :: (users.map planKey).dedup

/-- User filters of lines 263 to 269.  Note that the plan filter on
line 265 compares user.get with no default against the selected plan,
so a user with an absent plan never matches any selected plan. -/
def filtered_users (users : List User) (filter_plan filter_verified : String) :
    List User :=
  let fu1 :=
    if filter_plan ≠ "Tous" then
      users.filter (fun u => decide (u.plan = some filter_plan))
    else users
  if filter_verified = "Vérifiés" then
    fu1.filter (fun u => u.is_verified.getD false)
  else if filter_verified = "Non vérifiés" then
    fu1.filter (fun u => !(u.is_verified.getD false))
  else fu1

/-
Conversations page, admin_dashboard.py lines 379 to 383 and line 389.
-/

/-- Conversation filters of lines 379 to 383: title substring filter with
an absent title read as the empty string, then the minimum message count
filter with an inclusive threshold, each applied only when set. -/
def filtered_convs (conversations : List Conversation) (search_term : String)
    (min_messages : Nat) : List Conversation :=
  let fc1 :=
    if search_term ≠ "" then
      conversations.filter (fun c => substrCI search_term (c.title.getD ""))
    else conversations
  if min_messages > 0 then
    fc1.filter (fun c => decide ((c.messages.getD []).length ≥ min_messages))
  else fc1

/-- Display title of a conversation, line 389: an absent title is shown
as the placeholder Sans titre. -/
def conv_display_title (conv : Conversation) : String :=
  conv.title.getD "Sans titre"

/-
Export projections, admin_dashboard.py lines 279 to 291 and line 308.
A spreadsheet cell holds either a string or a number.
-/

/-- Cell of an export row: the dictionaries built for export hold both
strings and integers. -/
inductive Cell where
  | str : String → Cell
  | num : Nat → Cell
deriving DecidableEq, Repr

/-- Full export row of one user, lines 281 to 289: the dictionary literal
in its insertion order, absence of a string field read as N/A and of the
request counter as 0. -/
def export_row (user : User) : List (String × Cell) :=
  [("Email", Cell.str (user.email.getD "N/A")),
   ("Plan", Cell.str (user.plan.getD "N/A")),
   ("Prénom", Cell.str (user.firstName.getD "N/A")),
   ("Nom", Cell.str (user.lastName.getD "N/A")),
   ("Vérifié", Cell.str (if user.is_verified.getD false then "Oui" else "Non")),
   ("Créé le", Cell.str (user.createdAt.getD "N/A")),
   ("Requêtes quotidiennes", Cell.num (user.daily_requests.getD 0))]

/-- Full export of the filtered users, lines 279 to 289. -/
def export_data (users : List User) : List (List (String × Cell)) :=
  users.map export_row

/-- Minimal export row of one user, line 308: email and plan only. -/
def simple_row (user : User) : List (String × Cell) :=
  [("Email", Cell.str (user.email.getD "N/A")),
   ("Plan", Cell.str (user.plan.getD "N/A"))]

/-- Minimal export of the filtered users, line 308. -/
def simple_data (users : List User) : List (List (String × Cell)) :=
  users.map simple_row

/-
Search page, admin_dashboard.py lines 427 to 432 and lines 453 to 461.
Python truthiness of a string is non-emptiness.
-/

/-- User search of lines 427 to 432: the email criterion, when non-empty,
takes precedence over the id criterion; with neither set the result list
stays empty. -/
def user_search_results (users : List User)
    (search_email search_user_id : String) : List User :=
  if search_email ≠ "" then
    users.filter (fun u => substrCI search_email (u.email.getD ""))
  else if search_user_id ≠ "" then
    users.filter (fun u => decide (u.id = some search_user_id))
  else []

/-- Keyword scan of lines 456 to 461: walk the conversations in order,
and append a conversation to the results as soon as one of its messages
has content containing the keyword case-insensitively; the inner loop
stops at the first matching message. -/
def keyword_scan (conversations : List Conversation) (search_keyword : String) :
    List Conversation :=
  conversations.foldl
    (fun results conv =>
      if (conv.messages.getD []).any
          (fun msg => substrCI search_keyword (msg.content.getD "")) then
        results ++ [conv]
      else results)
    []

/-- Conversation search of lines 453 to 461: the exact-id criterion, when
non-empty, takes precedence over the keyword criterion; with neither set
the result list stays empty. -/
def conversation_search_results (conversations : List Conversation)
    (search_conv_id search_keyword : String) : List Conversation :=
  if search_conv_id ≠ "" then
    conversations.filter (fun c => decide (c.id = some search_conv_id))
  else if search_keyword ≠ "" then
    keyword_scan conversations search_keyword
  else []

/-
Cache layer.  The memoization of load_users and load_conversations on
lines 92 and 102 is supplied by the cache decorator of the hosting
framework with a time-to-live of 60 seconds; that behaviour is not part
of the repository source, so it is modelled from the specification.
-/

/-- Freshness window of the snapshot cache, the time-to-live of 60
seconds on lines 92 and 102. -/
def ttl_seconds : Nat := 60

/-- Modelled from the spec: state of one cached bulk query.  The cache
decorator wrapping load_users and load_conversations is framework
behaviour absent from the repository source; per the specification the
cache holds the last successfully loaded snapshot together with its load
time.  The calls field counts the Data Access queries issued so far, so
that the no-second-query property can be stated. -/
structure CacheState (α : Type) where
  snapshot : Option (List α × Nat)
  calls : Nat
deriving DecidableEq, Repr

/-- Modelled from the spec: one cached read.  The store argument gives
the outcome of the next Data Access query as a function of how many
queries were issued before it.  If the held snapshot is younger than the
freshness window it is returned unchanged and no query is issued;
otherwise one Data Access query is issued: on success the new snapshot
is stored with a fresh timestamp and returned, on failure the error is
surfaced and the previously held snapshot, if any, is left in place. -/
def getCached {α : Type} (store : Nat → Except String (List α)) (now : Nat)
    (s : CacheState α) : Except String (List α) × CacheState α :=
  match s.snapshot with
  | some (data, loadedAt) =>
      if now - loadedAt < ttl_seconds then (Except.ok data, s)
      else
        match store s.calls with
        | Except.ok fresh =>
            (Except.ok fresh, CacheState.mk (some (fresh, now)) (s.calls + 1))
        | Except.error e =>
            (Except.error e, CacheState.mk s.snapshot (s.calls + 1))
  | none =>
      match store s.calls with
      | Except.ok fresh =>
          (Except.ok fresh, CacheState.mk (some (fresh, now)) (s.calls + 1))
      | Except.error e =>
          (Except.error e, CacheState.mk s.snapshot (s.calls + 1))

/-- Modelled from the spec: the cached read of load_users, line 92. -/
def getCachedUsers (store : Nat → Except String (List User)) (now : Nat)
    (s : CacheState User) : Except String (List User) × CacheState User :=
  getCached store now s

/-- Modelled from the spec: the cached read of load_conversations,
line 102. -/
def getCachedConversations (store : Nat → Except String (List Conversation))
    (now : Nat) (s : CacheState Conversation) :
    Except String (List Conversation) × CacheState Conversation :=
  getCached store now s

/-
Concrete sample records used by the witnesses.
-/

/-- Sample user on the pro plan, verified, with an email. -/
def userPro : User :=
  ⟨some "u1", some "a@example.com", some "Ada", some "Lovelace", some "pro",
   some true, some false, some "2024-01-01T00:00:00Z", none, some 3, none, none⟩

/-- Sample user on the free plan, not verified. -/
def userFree : User :=
  ⟨some "u2", some "b@example.com", none, none, some "free",
   some false, none, none, none, none, none, none⟩

/-- Sample user with every field absent, in particular no plan and no
email. -/
def userBlank : User :=
  ⟨none, none, none, none, none, none, none, none, none, none, none, none⟩

/-- Sample snapshot of users. -/
def demoUsers : List User := [userPro, userFree, userBlank]

/-- Sample conversation whose single message says Hello world. -/
def convHello : Conversation :=
  ⟨some "c1", some "u1", some "Greetings", some "2024-01-02T00:00:00Z", none,
   some [⟨some "Hello world", some true⟩]⟩

/-- Sample conversation whose single message says Goodbye. -/
def convBye : Conversation :=
  ⟨some "c2", some "u2", some "Farewell", some "2024-01-03T00:00:00Z", none,
   some [⟨some "Goodbye", some false⟩]⟩

/-- Sample conversation with an absent title and two messages. -/
def convSansTitre : Conversation :=
  ⟨some "c3", some "u1", none, some "2024-01-04T00:00:00Z", none,
   some [⟨some "hi", some true⟩, ⟨some "yo", some false⟩]⟩

/-- Sample conversation with an absent message list. -/
def convNoMsgs : Conversation :=
  ⟨some "c4", some "u2", some "Empty", none, none, none⟩

/-- Sample snapshot of conversations. -/
def demoConvs : List Conversation :=
  [convHello, convBye, convSansTitre, convNoMsgs]

/-
Helper lemmas.
-/

/-- headMatch holds exactly when the needle is an initial segment. -/
theorem headMatch_iff (n h : List Char) :
    headMatch n h = true ↔ ∃ t, h = n ++ t := by
  induction n generalizing h with
  | nil => simp [headMatch]
  | cons a as ih =>
    cases h with
    | nil => simp [headMatch]
    | cons b bs =>
      simp only [headMatch, Bool.and_eq_true, beq_iff_eq, ih, List.cons_append,
        List.cons.injEq]
      constructor
      · rintro ⟨rfl, t, rfl⟩
        exact ⟨t, rfl, rfl⟩
      · rintro ⟨t, rfl, rfl⟩
        exact ⟨rfl, t, rfl⟩

/-- subMatch holds exactly when the needle occurs contiguously, that is
when the haystack splits as prefix, needle, suffix. -/
theorem subMatch_iff (n h : List Char) :
    subMatch n h = true ↔ ∃ s t, h = s ++ n ++ t := by
  induction h with
  | nil =>
    rw [subMatch, headMatch_iff]
    constructor
    · rintro ⟨t, ht⟩
      exact ⟨[], t, by simpa using ht⟩
    · rintro ⟨s, t, hst⟩
      have h1 : s = [] ∧ n = [] ∧ t = [] := by
        have h2 := hst.symm
        simp only [List.append_eq_nil] at h2
        tauto
      exact ⟨t, by simp [h1.2.1, h1.2.2]⟩
  | cons b bs ih =>
    rw [subMatch, Bool.or_eq_true, headMatch_iff, ih]
    constructor
    · rintro (⟨t, ht⟩ | ⟨s, t, hst⟩)
      · exact ⟨[], t, by simpa using ht⟩
      · exact ⟨b :: s, t, by simp [hst]⟩
    · rintro ⟨s, t, hst⟩
      cases s with
      | nil =>
        left
        exact ⟨t, by simpa using hst⟩
      | cons x xs =>
        right
        simp only [List.cons_append, List.cons.injEq] at hst
        exact ⟨xs, t, hst.2⟩

/-- The case-insensitive substring test coincides with the existence of
a decomposition of the lowercased haystack around the lowercased needle. -/
theorem substrCI_iff (needle haystack : String) :
    substrCI needle haystack = true ↔
      ∃ s t, lowerChars haystack = s ++ lowerChars needle ++ t :=
  subMatch_iff _ _

/-- A fold that conditionally appends is the accumulator followed by the
filtered list. -/
theorem foldl_append_filter {α : Type} (p : α → Bool) (l acc : List α) :
    l.foldl (fun r c => if p c then r ++ [c] else r) acc = acc ++ l.filter p := by
  induction l generalizing acc with
  | nil => simp
  | cons a l ih =>
    by_cases h : p a = true <;>
      simp [List.foldl_cons, h, ih, List.filter_cons]

/-- The keyword scan is the filter by the any-message predicate. -/
theorem keyword_scan_eq_filter (convs : List Conversation) (kw : String) :
    keyword_scan convs kw =
      convs.filter (fun c => (c.messages.getD []).any
        (fun m => substrCI kw (m.content.getD ""))) := by
  rw [keyword_scan]
  exact (foldl_append_filter _ convs []).trans (List.nil_append _)

/-- A fold accumulating a sum equals the accumulator plus the mapped sum. -/
theorem foldl_add_eq {α : Type} (f : α → Nat) (l : List α) (acc : Nat) :
    l.foldl (fun a x => a + f x) acc = acc + (l.map f).sum := by
  induction l generalizing acc with
  | nil => simp
  | cons x l ih => simp [ih, Nat.add_assoc]

/-- Effect of one dictionary update on a lookup: the bumped key gains
one, every other key is unchanged. -/
theorem lookupCount_bump (acc : List (String × Nat)) (p q : String) :
    lookupCount (bump acc p) q = lookupCount acc q + (if p = q then 1 else 0) := by
  induction acc with
  | nil =>
    by_cases h : p = q <;> simp [bump, lookupCount, h]
  | cons kv rest ih =>
    obtain ⟨k, n⟩ := kv
    by_cases hkp : k = p
    · subst hkp
      by_cases hq : k = q <;> simp [bump, lookupCount, hq]
    · by_cases hq : k = q
      · subst hq
        have hpk : ¬ p = k := fun hh => hkp hh.symm
        simp [bump, lookupCount, hkp, hpk]
      · simp [bump, lookupCount, hkp, hq, ih]

/-- One dictionary update raises the total of the counts by one. -/
theorem sum_bump (acc : List (String × Nat)) (p : String) :
    ((bump acc p).map Prod.snd).sum = (acc.map Prod.snd).sum + 1 := by
  induction acc with
  | nil => simp [bump]
  | cons kv rest ih =>
    obtain ⟨k, n⟩ := kv
    by_cases h : k = p <;> simp [bump, h, ih] <;> omega

/-- Folding dictionary updates over users adds, for each key, the number
of users whose plan bucket is that key. -/
theorem plan_counts_lookup_aux (users : List User) (q : String) :
    ∀ acc : List (String × Nat),
      lookupCount (users.foldl (fun a u => bump a (planKey u)) acc) q =
        lookupCount acc q + users.countP (fun u => decide (planKey u = q)) := by
  induction users with
  | nil => intro acc; simp
  | cons u us ih =>
    intro acc
    simp only [List.foldl_cons, List.countP_cons]
    rw [ih, lookupCount_bump]
    by_cases h : planKey u = q
    · simp [h]
      omega
    · simp [h]

/-- Folding dictionary updates over users adds the number of users to
the total of the counts. -/
theorem plan_counts_sum_aux (users : List User) :
    ∀ acc : List (String × Nat),
      ((users.foldl (fun a u => bump a (planKey u)) acc).map Prod.snd).sum =
        (acc.map Prod.snd).sum + users.length := by
  induction users with
  | nil => intro acc; simp
  | cons u us ih =>
    intro acc
    simp only [List.foldl_cons, List.length_cons]
    rw [ih, sum_bump]
    omega

/-- A cached read with a fresh snapshot returns it and leaves the state
untouched, issuing no Data Access query. -/
theorem getCached_fresh {α : Type} (store : Nat → Except String (List α))
    (now : Nat) (s : CacheState α) (data : List α) (t : Nat)
    (hs : s.snapshot = some (data, t)) (hfresh : now - t < ttl_seconds) :
    getCached store now s = (Except.ok data, s) := by
  simp [getCached, hs, hfresh]

/-- A cached read past the freshness window whose Data Access query
fails surfaces the error and keeps the held snapshot, having issued one
query. -/
theorem getCached_stale_error {α : Type} (store : Nat → Except String (List α))
    (now : Nat) (s : CacheState α) (data : List α) (t : Nat) (e : String)
    (hs : s.snapshot = some (data, t)) (hstale : ¬ now - t < ttl_seconds)
    (herr : store s.calls = Except.error e) :
    getCached store now s =
      (Except.error e, CacheState.mk s.snapshot (s.calls + 1)) := by
  simp [getCached, hs, hstale, herr]

/-- A cached read with no held snapshot whose Data Access query fails
surfaces the error and stores no data. -/
theorem getCached_none_error {α : Type} (store : Nat → Except String (List α))
    (now : Nat) (s : CacheState α) (e : String)
    (hs : s.snapshot = none) (herr : store s.calls = Except.error e) :
    getCached store now s =
      (Except.error e, CacheState.mk s.snapshot (s.calls + 1)) := by
  simp [getCached, hs, herr]

/-- Every user in the filtered output satisfies each active predicate. -/
theorem mem_filtered_users {users : List User} {fp fv : String} {u : User}
    (hu : u ∈ filtered_users users fp fv) :
    u ∈ users ∧ (fp ≠ "Tous" → u.plan = some fp) ∧
      (fv = "Vérifiés" → u.is_verified.getD false = true) ∧
      (fv = "Non vérifiés" → u.is_verified.getD false = false) := by
  simp only [filtered_users] at hu
  by_cases h1 : fp ≠ "Tous" <;> by_cases h2 : fv = "Vérifiés" <;>
    by_cases h3 : fv = "Non vérifiés" <;>
      simp_all [List.mem_filter]

/-- Every conversation in the filtered output satisfies each active
predicate. -/
theorem mem_filtered_convs {convs : List Conversation} {term : String}
    {mm : Nat} {c : Conversation} (hc : c ∈ filtered_convs convs term mm) :
    c ∈ convs ∧ (term ≠ "" → substrCI term (c.title.getD "") = true) ∧
      (0 < mm → mm ≤ (c.messages.getD []).length) := by
  simp only [filtered_convs] at hc
  by_cases h1 : term ≠ "" <;> by_cases h2 : mm > 0 <;>
    simp_all [List.mem_filter]

/-- The filtered users form a subsequence of the input snapshot. -/
theorem filtered_users_sublist (users : List User) (fp fv : String) :
    (filtered_users users fp fv).Sublist users := by
  simp only [filtered_users]
  split_ifs <;>
    first
    | exact List.Sublist.refl _
    | exact List.filter_sublist _
    | exact (List.filter_sublist _).trans (List.filter_sublist _)

/-- The filtered conversations form a subsequence of the input snapshot. -/
theorem filtered_convs_sublist (convs : List Conversation) (term : String)
    (mm : Nat) : (filtered_convs convs term mm).Sublist convs := by
  simp only [filtered_convs]
  split_ifs <;>
    first
    | exact List.Sublist.refl _
    | exact List.filter_sublist _
    | exact (List.filter_sublist _).trans (List.filter_sublist _)

/-- With both user predicates unset every user passes. -/
theorem filtered_users_all (users : List User) :
    filtered_users users "Tous" "Tous" = users := by
  simp [filtered_users]

/-- With both conversation predicates unset every conversation passes. -/
theorem filtered_convs_all (convs : List Conversation) :
    filtered_convs convs "" 0 = convs := by
  simp [filtered_convs]

/-
Claim theorems.
-/

/-- C1: cache idempotence.  While the held snapshot is younger than the
60 second freshness window, two consecutive cached reads of the users or
of the conversations both return the identical snapshot list, the cache
state is left exactly as it was, and the count of Data Access queries
issued does not change, so no query reaches the store between the calls. -/
theorem cache_fresh_idempotent
    (storeU : Nat → Except String (List User))
    (storeC : Nat → Except String (List Conversation))
    (n1 n2 : Nat) (su : CacheState User) (sc : CacheState Conversation)
    (du : List User) (dc : List Conversation) (tu tc : Nat)
    (hsu : su.snapshot = some (du, tu))
    (hu1 : n1 - tu < ttl_seconds) (hu2 : n2 - tu < ttl_seconds)
    (hsc : sc.snapshot = some (dc, tc))
    (hc1 : n1 - tc < ttl_seconds) (hc2 : n2 - tc < ttl_seconds) :
    ((getCachedUsers storeU n1 su).1 = Except.ok du ∧
     (getCachedUsers storeU n2 (getCachedUsers storeU n1 su).2).1 =
       Except.ok du ∧
     (getCachedUsers storeU n2 (getCachedUsers storeU n1 su).2).2 = su ∧
     (getCachedUsers storeU n2 (getCachedUsers storeU n1 su).2).2.calls =
       su.calls) ∧
    ((getCachedConversations storeC n1 sc).1 = Except.ok dc ∧
     (getCachedConversations storeC n2
       (getCachedConversations storeC n1 sc).2).1 = Except.ok dc ∧
     (getCachedConversations storeC n2
       (getCachedConversations storeC n1 sc).2).2 = sc ∧
     (getCachedConversations storeC n2
       (getCachedConversations storeC n1 sc).2).2.calls = sc.calls) := by
  constructor
  · have h1 := getCached_fresh storeU n1 su du tu hsu hu1
    have h2 := getCached_fresh storeU n2 su du tu hsu hu2
    simp [getCachedUsers, h1, h2]
  · have h1 := getCached_fresh storeC n1 sc dc tc hsc hc1
    have h2 := getCached_fresh storeC n2 sc dc tc hsc hc2
    simp [getCachedConversations, h1, h2]

/-- Store oracle answering every users query with the sample snapshot. -/
def demoStoreU : Nat → Except String (List User) := fun _ => Except.ok demoUsers

/-- Store oracle answering every conversations query with the sample
snapshot. -/
def demoStoreC : Nat → Except String (List Conversation) :=
  fun _ => Except.ok demoConvs

/-- Cache state holding the sample users loaded at time 0. -/
def demoCacheU : CacheState User := CacheState.mk (some (demoUsers, 0)) 1

/-- Cache state holding the sample conversations loaded at time 0. -/
def demoCacheC : CacheState Conversation :=
  CacheState.mk (some (demoConvs, 0)) 1

/-- Witness for C1 at concrete stores, times 10 and 59, and held
snapshots loaded at time 0. -/
theorem cache_fresh_idempotent_witness :
    (getCachedUsers demoStoreU 10 demoCacheU).1 = Except.ok demoUsers ∧
    (getCachedUsers demoStoreU 59
      (getCachedUsers demoStoreU 10 demoCacheU).2).2.calls =
      demoCacheU.calls ∧
    (getCachedConversations demoStoreC 10 demoCacheC).1 =
      Except.ok demoConvs := by
  have h := cache_fresh_idempotent demoStoreU demoStoreC 10 59 demoCacheU
    demoCacheC demoUsers demoConvs 0 0 rfl (by decide) (by decide) rfl
    (by decide) (by decide)
  exact ⟨h.1.1, h.1.2.2.2, h.2.1⟩

/-- C2: cache failure atomicity.  When the refresh after the freshness
window fails with a store error, the error is surfaced to the caller and
the previously held stale snapshot is left in place; when no snapshot
was held, the error propagates and the cache still holds no data. -/
theorem cache_refresh_failure_atomic
    (storeU : Nat → Except String (List User)) (now : Nat)
    (s : CacheState User) (data : List User) (t : Nat) (e : String)
    (storeC : Nat → Except String (List Conversation))
    (s0 : CacheState Conversation) (e0 : String)
    (hs : s.snapshot = some (data, t)) (hstale : ttl_seconds ≤ now - t)
    (herr : storeU s.calls = Except.error e)
    (hs0 : s0.snapshot = none)
    (herr0 : storeC s0.calls = Except.error e0) :
    (getCachedUsers storeU now s).1 = Except.error e ∧
    (getCachedUsers storeU now s).2.snapshot = some (data, t) ∧
    (getCachedConversations storeC now s0).1 = Except.error e0 ∧
    (getCachedConversations storeC now s0).2.snapshot = none := by
  have h1 := getCached_stale_error storeU now s data t e hs (by omega) herr
  have h2 := getCached_none_error storeC now s0 e0 hs0 herr0
  simp [getCachedUsers, getCachedConversations, h1, h2, hs, hs0]

/-- Store oracle for users whose every query fails. -/
def failStoreU : Nat → Except String (List User) :=
  fun _ => Except.error "store down"

/-- Store oracle for conversations whose every query fails. -/
def failStoreC : Nat → Except String (List Conversation) :=
  fun _ => Except.error "store down"

/-- Cache state with no conversations snapshot yet. -/
def emptyCacheC : CacheState Conversation := CacheState.mk none 0

/-- Witness for C2: a failing refresh at time 60 of a snapshot loaded at
time 0 surfaces the error and keeps the stale snapshot; the same failure
with no held snapshot leaves the cache empty. -/
theorem cache_refresh_failure_witness :
    (getCachedUsers failStoreU 60 demoCacheU).1 = Except.error "store down" ∧
    (getCachedUsers failStoreU 60 demoCacheU).2.snapshot =
      some (demoUsers, 0) ∧
    (getCachedConversations failStoreC 60 emptyCacheC).2.snapshot = none := by
  have h := cache_refresh_failure_atomic failStoreU 60 demoCacheU demoUsers 0
    "store down" failStoreC emptyCacheC "store down" rfl (by decide) rfl rfl rfl
  exact ⟨h.1, h.2.1, h.2.2.2⟩

/-- C3: the plan selectbox offers the normalized value unknown for a
user with an absent plan, but the plan filter compares the raw plan
field with no default, so selecting unknown excludes every user whose
plan field is absent: the filter on the sample user with no plan returns
the empty list instead of including that user. -/
theorem plan_filter_unknown_excludes_absent :
    userBlank.plan = none ∧
    planKey userBlank = "unknown" ∧
    "unknown" ∈ plan_options [userBlank] ∧
    filtered_users [userBlank] "unknown" "Tous" = [] := by
  decide

/-- C4: plan histogram.  An absent plan is bucketed under unknown, a
present plan under its literal value: the count held for each key is the
number of users whose bucket key is that value, and the bucket counts
sum to the total number of users. -/
theorem plan_histogram_buckets_and_total (users : List User) :
    (∀ u : User, u.plan = none → planKey u = "unknown") ∧
    (∀ u : User, ∀ v : String, u.plan = some v → planKey u = v) ∧
    (∀ p : String, lookupCount (plan_counts users) p =
      users.countP (fun u => decide (planKey u = p))) ∧
    ((plan_counts users).map Prod.snd).sum = users.length := by
  refine ⟨fun u hu => by simp [planKey, hu],
    fun u v hu => by simp [planKey, hu], fun p => ?_, ?_⟩
  · have h := plan_counts_lookup_aux users p []
    simpa [plan_counts, lookupCount] using h
  · have h := plan_counts_sum_aux users []
    simpa [plan_counts] using h

/-- Witness for C4 on the sample snapshot: one user with an absent plan
lands in the unknown bucket and the counts sum to the user total. -/
theorem plan_histogram_witness :
    lookupCount (plan_counts demoUsers) "unknown" = 1 ∧
    ((plan_counts demoUsers).map Prod.snd).sum = 3 :=
  ⟨((plan_histogram_buckets_and_total demoUsers).2.2.1 "unknown").trans
      (by decide),
   ((plan_histogram_buckets_and_total demoUsers).2.2.2).trans rfl⟩

/-- C5: keyword search.  For a non-empty keyword, the conversation
search with no id criterion returns exactly the conversations, in input
order, having at least one message whose content contains the keyword as
a case-insensitive substring; the result is a filter of the input, so
each matching conversation appears exactly as often as it occurs in the
snapshot, and membership is characterised by the existence of a matching
message. -/
theorem keyword_search_iff (convs : List Conversation) (kw : String)
    (c : Conversation) (hkw : kw ≠ "") :
    conversation_search_results convs "" kw =
      convs.filter (fun c => (c.messages.getD []).any
        (fun m => substrCI kw (m.content.getD ""))) ∧
    (c ∈ conversation_search_results convs "" kw ↔
      c ∈ convs ∧ ∃ m ∈ c.messages.getD [],
        ∃ s t, lowerChars (m.content.getD "") =
          s ++ lowerChars kw ++ t) := by
  have heq : conversation_search_results convs "" kw =
      keyword_scan convs kw := by
    simp [conversation_search_results, hkw]
  rw [heq, keyword_scan_eq_filter]
  refine ⟨rfl, ?_⟩
  simp [List.mem_filter, List.any_eq_true, substrCI_iff]

/-- Witness for C5, the example of the specification: among a
conversation saying Hello world and one saying Goodbye, searching world
returns exactly the first. -/
theorem keyword_search_iff_witness :
    conversation_search_results [convHello, convBye] "" "world" =
      [convHello] := by
  rw [(keyword_search_iff [convHello, convBye] "world" convHello
    (by decide)).1]
  decide

/-- C6: filter conjunction.  Both filtered listings are subsequences of
their input snapshot in the original relative order, every element of a
filtered listing satisfies each active predicate, and with the
predicates unset the listings are the unchanged snapshots. -/
theorem filter_conjunction_sound (users : List User)
    (convs : List Conversation) (filter_plan filter_verified : String)
    (search_term : String) (min_messages : Nat) :
    (filtered_users users filter_plan filter_verified).Sublist users ∧
    (∀ u ∈ filtered_users users filter_plan filter_verified,
      (filter_plan ≠ "Tous" → u.plan = some filter_plan) ∧
      (filter_verified = "Vérifiés" → u.is_verified.getD false = true) ∧
      (filter_verified = "Non vérifiés" → u.is_verified.getD false = false)) ∧
    filtered_users users "Tous" "Tous" = users ∧
    (filtered_convs convs search_term min_messages).Sublist convs ∧
    (∀ c ∈ filtered_convs convs search_term min_messages,
      (search_term ≠ "" → substrCI search_term (c.title.getD "") = true) ∧
      (0 < min_messages →
        min_messages ≤ (c.messages.getD []).length)) ∧
    filtered_convs convs "" 0 = convs :=
  ⟨filtered_users_sublist users filter_plan filter_verified,
   fun _ hu => (mem_filtered_users hu).2,
   filtered_users_all users,
   filtered_convs_sublist convs search_term min_messages,
   fun _ hc => (mem_filtered_convs hc).2,
   filtered_convs_all convs⟩

/-- Witness for C6 on the sample snapshots with the plan predicate set
to pro and the conversation predicates unset. -/
theorem filter_conjunction_witness :
    (filtered_users demoUsers "pro" "Tous").Sublist demoUsers ∧
    filtered_convs demoConvs "" 0 = demoConvs :=
  ⟨(filter_conjunction_sound demoUsers demoConvs "pro" "Tous" "" 0).1,
   (filter_conjunction_sound demoUsers demoConvs "pro" "Tous" "" 0).2.2.2.2.2⟩

/-- C7 counterexample: the header row of the full export is not the
English header text stated by the claim; the third column is Prénom, not
First Name. -/
theorem export_headers_counterexample :
    (export_row userBlank).map Prod.fst ≠
      ["Email", "Plan", "First Name", "Last Name", "Verified",
       "Created At", "Daily Requests"] := by
  decide

/-- C7 amended: every full export row has exactly the columns Email,
Plan, Prénom, Nom, Vérifié, Créé le, Requêtes quotidiennes in that
order, every minimal export row has exactly Email then Plan, and a user
with an absent email field exports the literal N/A in the Email cell of
both projections. -/
theorem export_projection_amended (users : List User) (user : User) :
    (∀ row ∈ export_data users, row.map Prod.fst =
      ["Email", "Plan", "Prénom", "Nom", "Vérifié", "Créé le",
       "Requêtes quotidiennes"]) ∧
    (∀ row ∈ simple_data users, row.map Prod.fst = ["Email", "Plan"]) ∧
    (user.email = none →
      (export_row user).head? = some ("Email", Cell.str "N/A") ∧
      (simple_row user).head? = some ("Email", Cell.str "N/A")) := by
  refine ⟨?_, ?_, fun h => ⟨?_, ?_⟩⟩
  · intro row hrow
    simp only [export_data, List.mem_map] at hrow
    rcases hrow with ⟨u, _, rfl⟩
    rfl
  · intro row hrow
    simp only [simple_data, List.mem_map] at hrow
    rcases hrow with ⟨u, _, rfl⟩
    rfl
  · simp [export_row, h]
  · simp [simple_row, h]

/-- Witness for C7 amended at the sample user with every field absent:
its Email cell holds the literal N/A. -/
theorem export_projection_witness :
    (export_row userBlank).head? = some ("Email", Cell.str "N/A") :=
  ((export_projection_amended [] userBlank).2.2 rfl).1

/-- C8 counterexample: the conversation with an absent title displays as
Sans titre and the term sans matches that placeholder
case-insensitively, yet the title filter returns the empty list on the
snapshot holding just that conversation. -/
theorem title_filter_counterexample :
    convSansTitre.title = none ∧
    substrCI "sans" (conv_display_title convSansTitre) = true ∧
    filtered_convs [convSansTitre] "sans" 0 = [] := by
  decide

/-- C8 amended: an absent title defaults to the placeholder Sans titre
for display only; the title filter reads an absent title as the empty
string, so such a conversation passes an active title filter only if the
term matches the empty title, and with the filters unset it is listed
exactly when it is in the snapshot. -/
theorem title_placeholder_amended (convs : List Conversation)
    (c : Conversation) (term : String) (mm : Nat) (hc : c.title = none) :
    conv_display_title c = "Sans titre" ∧
    (c ∈ filtered_convs convs term mm → term ≠ "" →
      substrCI term "" = true) ∧
    (term = "" → mm = 0 →
      (c ∈ filtered_convs convs term mm ↔ c ∈ convs)) := by
  refine ⟨by simp [conv_display_title, hc], ?_, ?_⟩
  · intro hmem hterm
    have h := (mem_filtered_convs hmem).2.1 hterm
    simpa [hc] using h
  · rintro rfl rfl
    rw [filtered_convs_all]

/-- Witness for C8 amended at the sample conversation with an absent
title. -/
theorem title_placeholder_witness :
    conv_display_title convSansTitre = "Sans titre" ∧
    (convSansTitre ∈ filtered_convs demoConvs "" 0 ↔
      convSansTitre ∈ demoConvs) :=
  ⟨(title_placeholder_amended demoConvs convSansTitre "" 0 rfl).1,
   (title_placeholder_amended demoConvs convSansTitre "" 0 rfl).2.2 rfl rfl⟩

/-- C9: the total message statistic is the sum over the conversation
snapshot of the length of each message sequence: it equals the mapped
sum, it is additive over concatenation of snapshots so nothing is
counted twice or omitted, each conversation contributes exactly its own
message count, and a conversation with an absent message list
contributes nothing. -/
theorem total_messages_sum (convs l1 l2 : List Conversation)
    (c : Conversation) :
    total_messages convs =
      (convs.map (fun c => (c.messages.getD []).length)).sum ∧
    total_messages (l1 ++ l2) = total_messages l1 + total_messages l2 ∧
    total_messages (c :: convs) =
      (c.messages.getD []).length + total_messages convs ∧
    (c.messages = none →
      total_messages (c :: convs) = total_messages convs) := by
  have key : ∀ l : List Conversation, total_messages l =
      (l.map (fun c => (c.messages.getD []).length)).sum := by
    intro l
    have h := foldl_add_eq (fun c : Conversation => (c.messages.getD []).length) l 0
    simpa [total_messages] using h
  refine ⟨key convs, ?_, ?_, ?_⟩
  · rw [key, key, key, List.map_append, List.sum_append]
  · rw [key, key]
    simp
  · intro hcm
    rw [key, key]
    simp [hcm]

/-- Witness for C9: the sample conversation with an absent message list
contributes nothing to the total. -/
theorem total_messages_sum_witness :
    total_messages (convNoMsgs :: demoConvs) = total_messages demoConvs :=
  (total_messages_sum demoConvs [] [] convNoMsgs).2.2.2 rfl

/-- C10: search precedence.  With a non-empty email term the user search
result is the email-substring filter alone, whatever the id term holds;
with a non-empty conversation id term the conversation search result is
the exact-id filter alone, whatever the keyword term holds. -/
theorem search_precedence (users : List User) (convs : List Conversation)
    (search_email search_user_id search_conv_id search_keyword : String)
    (he : search_email ≠ "") (hc : search_conv_id ≠ "") :
    user_search_results users search_email search_user_id =
      users.filter (fun u => substrCI search_email (u.email.getD "")) ∧
    conversation_search_results convs search_conv_id search_keyword =
      convs.filter (fun c => decide (c.id = some search_conv_id)) := by
  constructor
  · simp [user_search_results, he]
  · simp [conversation_search_results, hc]

/-- Witness for C10: with both terms supplied on the sample snapshots,
the user search follows the email term only and the conversation search
follows the id term only. -/
theorem search_precedence_witness :
    user_search_results demoUsers "a@" "u2" = [userPro] ∧
    conversation_search_results demoConvs "c2" "world" = [convBye] := by
  have h := search_precedence demoUsers demoConvs "a@" "u2" "c2" "world"
    (by decide) (by decide)
  exact ⟨h.1.trans (by decide), h.2.trans (by decide)⟩

end AdminDashboard
